import Mathlib

/-!
Shallow embedding of the per-room chat coordinator (`ChatRoom` Durable Object)
and proofs of the specification claims about it.

Modelling conventions:
* JS strings are `List Char` (`Str`); `String.prototype.trim` is `jsTrim`.
* Transport handles (`WebSocket` objects) are `Nat` keys; the JS `Map` keyed by
  handles is an insertion-ordered association list with unique keys
  (`mapGet` / `mapSet` / `mapDelete` mirror `Map.get` / `Map.set` / `Map.delete`).
* `crypto.randomUUID()` is modelled by a fresh-id counter `nextId` threaded in
  the room state; `Date.now()` is an explicit `now : Nat` argument per event.
* A `ws.send` that throws (broken transport) is modelled by a predicate
  `broken : WS → Bool` given to the handlers; `sendToWebSocket` mirrors the
  try/catch in the source: on a broken socket it deletes the session and
  produces no output, otherwise it emits the frame.
* Observable I/O (frames written to sockets, socket closes, the `pong`
  auto-reply) is collected as a list of `OutEvent`s returned next to the
  post-state; every handler is a total function, mirroring the fact that the
  source handlers never throw to their caller.
-/

/-- A JS string, as its list of characters. -/
abbrev Str := List Char

/-- JS `String.prototype.trim`: strip leading and trailing whitespace. -/
def jsTrim (s : Str) : Str :=
  ((s.dropWhile Char.isWhitespace).reverse.dropWhile Char.isWhitespace).reverse

/-- A transport handle (a `WebSocket` object identity). -/
abbrev WS := Nat

/-- The `Message` tagged union of the source: `ChatMessage`, `UserJoinedMessage`,
`UserLeftMessage` and `ServerMessage`, with `id` minted from the fresh-id
counter and `timestamp` from `Date.now()`. -/
inductive Message where
  | chat (id : Nat) (content : Str) (username : Str) (timestamp : Nat)
  | userJoined (id : Nat) (username : Str) (timestamp : Nat)
  | userLeft (id : Nat) (username : Str) (timestamp : Nat)
  | server (id : Nat) (content : Str) (timestamp : Nat)
deriving DecidableEq, Repr

/-- The `ChatUser` record stored per joined connection. -/
structure ChatUser where
  username : Str
  connectionId : Nat
  joinedAt : Nat
deriving DecidableEq, Repr

/-- The `ClientMessage` tagged union (decoded inbound intents). -/
inductive ClientMessage where
  | sendMessage (content : Str)
  | joinChat (username : Str)
  | leaveChat
deriving DecidableEq, Repr

/-- Observable transport-level effects of a handler. -/
inductive OutEvent where
  | send (ws : WS) (m : Message)
  | pong (ws : WS)
  | close (ws : WS) (code : Nat) (reason : Str)
deriving DecidableEq, Repr

/-- Model of `Map.prototype.get`. -/
def mapGet {α : Type} : List (WS × α) → WS → Option α
  | [], _ => none
  | (k, v) :: rest, ws => if k = ws then some v else mapGet rest ws

/-- Model of `Map.prototype.set`: replace in place if the key is present (keeping its
insertion position), otherwise append at the end. -/
def mapSet {α : Type} : List (WS × α) → WS → α → List (WS × α)
  | [], ws, v => [(ws, v)]
  | (k, v') :: rest, ws, v =>
    if k = ws then (k, v) :: rest else (k, v') :: mapSet rest ws v

/-- Model of `Map.prototype.delete`. -/
def mapDelete {α : Type} (m : List (WS × α)) (ws : WS) : List (WS × α) :=
  m.filter (fun p => p.1 != ws)

/-- The mutable state of one `ChatRoom` instance: the `sessions` map, the
`messageHistory` array, the per-socket serialized attachments
(`ws.serializeAttachment`), and the fresh-id counter. -/
structure RoomState where
  sessions : List (WS × ChatUser)
  messageHistory : List Message
  attachments : List (WS × ChatUser)
  nextId : Nat
deriving DecidableEq, Repr

/-- The `MAX_HISTORY` constant of the source. -/
def MAX_HISTORY : Nat := 50

/-- JS `Array.prototype.slice(-n)`: the last `n` elements (the whole list when
it is shorter). -/
def lastN (n : Nat) (l : List α) : List α :=
  l.drop (l.length - n)

/-- Body of `addToHistory`, on the history array alone: push, then if the length
exceeds `MAX_HISTORY` keep only `slice(-MAX_HISTORY)`. -/
def historyAppend (h : List Message) (m : Message) : List Message :=
  let h' := h ++ [m]
  if MAX_HISTORY < h'.length then lastN MAX_HISTORY h' else h'

/-- Model of `addToHistory` on the room state. -/
def addToHistory (st : RoomState) (m : Message) : RoomState :=
  { st with messageHistory := historyAppend st.messageHistory m }

/-- Model of `sendToWebSocket`: try `ws.send`; on a transport write error, delete the
broken connection from `sessions` and swallow the failure. -/
def sendToWebSocket (broken : WS → Bool) (st : RoomState) (ws : WS) (m : Message) :
    RoomState × List OutEvent :=
  if broken ws then
    ({ st with sessions := mapDelete st.sessions ws }, [])
  else
    (st, [OutEvent.send ws m])

/-- The fan-out loop of `broadcastMessage`: one `sendToWebSocket` per entry of
the snapshot taken of `sessions` when the loop starts. -/
def sendToAll (broken : WS → Bool) (st : RoomState) (targets : List (WS × ChatUser))
    (m : Message) : RoomState × List OutEvent :=
  match targets with
  | [] => (st, [])
  | (ws, _) :: rest =>
    let r1 := sendToWebSocket broken st ws m
    let r2 := sendToAll broken r1.1 rest m
    (r2.1, r1.2 ++ r2.2)

/-- Model of `broadcastMessage`: send `m` to every currently registered session. -/
def broadcastMessage (broken : WS → Bool) (st : RoomState) (m : Message) :
    RoomState × List OutEvent :=
  sendToAll broken st st.sessions m

/-- Model of `sendError`: mint a `server` message carrying the error text and send it
directly to the offending connection only. -/
def sendError (broken : WS → Bool) (st : RoomState) (ws : WS) (errorMessage : Str)
    (now : Nat) : RoomState × List OutEvent :=
  let msg := Message.server st.nextId ("Error: ".data ++ errorMessage) now
  sendToWebSocket broken { st with nextId := st.nextId + 1 } ws msg

/-- The history-replay loop of `handleUserJoin`: send each replayed history
message directly to the joining connection, in stored order. -/
def replayHistory (broken : WS → Bool) (st : RoomState) (ws : WS) (msgs : List Message) :
    RoomState × List OutEvent :=
  match msgs with
  | [] => (st, [])
  | m :: rest =>
    let r1 := sendToWebSocket broken st ws m
    let r2 := replayHistory broken r1.1 ws rest
    (r2.1, r1.2 ++ r2.2)

/-- Model of `handleUserJoin`: validate the username, reject duplicates, store and
attach the new `ChatUser`, send the welcome plus the last 10 history entries to
the joiner, then mint, record and broadcast the `user_joined` event. -/
def handleUserJoin (broken : WS → Bool) (st : RoomState) (ws : WS) (username : Str)
    (now : Nat) : RoomState × List OutEvent :=
  if (jsTrim username).length = 0 then
    sendError broken st ws "Invalid username".data now
  else if st.sessions.any (fun p => p.2.username == username) then
    sendError broken st ws "Username already taken".data now
  else
    let user : ChatUser := ⟨jsTrim username, st.nextId, now⟩
    let st1 : RoomState :=
      { st with
        sessions := mapSet st.sessions ws user
        attachments := mapSet st.attachments ws user
        nextId := st.nextId + 1 }
    let welcome := Message.server st1.nextId
      ("Welcome to the chat, ".data ++ user.username ++ "!".data) now
    let st2 := { st1 with nextId := st1.nextId + 1 }
    let r1 := sendToWebSocket broken st2 ws welcome
    let r2 := replayHistory broken r1.1 ws (lastN 10 r1.1.messageHistory)
    let joinMessage := Message.userJoined r2.1.nextId user.username now
    let st5 := addToHistory { r2.1 with nextId := r2.1.nextId + 1 } joinMessage
    let r3 := broadcastMessage broken st5 joinMessage
    (r3.1, r1.2 ++ r2.2 ++ r3.2)

/-- Model of `handleSendMessage`: require a session, reject blank content, else mint the
`message` event with trimmed content, record it and broadcast it. -/
def handleSendMessage (broken : WS → Bool) (st : RoomState) (ws : WS) (content : Str)
    (now : Nat) : RoomState × List OutEvent :=
  match mapGet st.sessions ws with
  | none => sendError broken st ws "Not authenticated. Please join the chat first.".data now
  | some user =>
    if (jsTrim content).length = 0 then
      sendError broken st ws "Message cannot be empty".data now
    else
      let chatMessage := Message.chat st.nextId (jsTrim content) user.username now
      let st2 := addToHistory { st with nextId := st.nextId + 1 } chatMessage
      broadcastMessage broken st2 chatMessage

/-- Model of `handleUserLeave`: if a session exists, remove it and mint, record and
broadcast the `user_left` event; in every case close the socket with the
normal-closure code 1000. -/
def handleUserLeave (broken : WS → Bool) (st : RoomState) (ws : WS) (now : Nat) :
    RoomState × List OutEvent :=
  match mapGet st.sessions ws with
  | some user =>
    let st1 := { st with sessions := mapDelete st.sessions ws }
    let leaveMessage := Message.userLeft st1.nextId user.username now
    let st3 := addToHistory { st1 with nextId := st1.nextId + 1 } leaveMessage
    let r := broadcastMessage broken st3 leaveMessage
    (r.1, r.2 ++ [OutEvent.close ws 1000 "User left chat".data])
  | none => (st, [OutEvent.close ws 1000 "User left chat".data])

/-- Model of `webSocketClose`: a transport closure is handled exactly as a leave. -/
def webSocketClose (broken : WS → Bool) (st : RoomState) (ws : WS) (now : Nat) :
    RoomState × List OutEvent :=
  handleUserLeave broken st ws now

/-- Model of `webSocketMessage`: answer the literal `ping` probe with the literal
`pong` before any JSON parsing; otherwise decode the payload (`parse` stands
for `JSON.parse` plus the `type` dispatch; `none` covers both undecodable JSON
and an unknown `type`) and dispatch to the matching handler. -/
def webSocketMessage (parse : Str → Option ClientMessage) (broken : WS → Bool)
    (st : RoomState) (ws : WS) (raw : Str) (now : Nat) : RoomState × List OutEvent :=
  if raw = "ping".data then
    (st, [OutEvent.pong ws])
  else
    match parse raw with
    | some (ClientMessage.joinChat username) => handleUserJoin broken st ws username now
    | some (ClientMessage.sendMessage content) => handleSendMessage broken st ws content now
    | some ClientMessage.leaveChat => handleUserLeave broken st ws now
    | none => sendError broken st ws "Invalid message format".data now

/-- The rehydration loop of the constructor: rebuild `sessions` from the attachment
carried by each still-open socket (`ctx.getWebSockets()` with
`deserializeAttachment`); `messageHistory` restarts empty. -/
def restoreState (handles : List (WS × Option ChatUser)) : RoomState :=
  { sessions := handles.filterMap (fun p => p.2.map (fun u => (p.1, u)))
    messageHistory := []
    attachments := handles.filterMap (fun p => p.2.map (fun u => (p.1, u)))
    nextId := 0 }

/-- A transport layer on which no write fails. -/
def noFail : WS → Bool := fun _ => false

/-- The initial state of a freshly created room with no open sockets. -/
def initialState : RoomState :=
  { sessions := [], messageHistory := [], attachments := [], nextId := 0 }

/-- Predicate on output events: a frame written to socket `ws`. -/
def sentTo (ws : WS) : OutEvent → Bool
  | OutEvent.send w _ => w == ws
  | _ => false

/- ### Helper lemmas about the map, the fan-out and the history buffer -/

theorem mapGet_mapSet_self {α : Type} (l : List (WS × α)) (ws : WS) (v : α) :
    mapGet (mapSet l ws v) ws = some v := by
  induction l with
  | nil => simp [mapGet, mapSet]
  | cons p rest ih =>
    by_cases h : p.1 = ws
    · simp [mapGet, mapSet, h]
    · simpa [mapGet, mapSet, h] using ih

theorem mapGet_mapDelete_self {α : Type} (l : List (WS × α)) (ws : WS) :
    mapGet (mapDelete l ws) ws = none := by
  induction l with
  | nil => simp [mapGet, mapDelete]
  | cons p rest ih =>
    by_cases h : p.1 = ws
    · simpa [mapDelete, List.filter_cons, h] using ih
    · simpa [mapGet, mapDelete, List.filter_cons, h] using ih

theorem mapGet_mem {α : Type} {l : List (WS × α)} {ws : WS} {v : α}
    (h : mapGet l ws = some v) : (ws, v) ∈ l := by
  induction l with
  | nil => simp [mapGet] at h
  | cons p rest ih =>
    obtain ⟨k, v'⟩ := p
    by_cases hp : k = ws
    · subst hp
      simp [mapGet] at h
      rw [← h]
      exact List.mem_cons_self _ _
    · simp [mapGet, hp] at h
      exact List.mem_cons_of_mem _ (ih h)

theorem sendToWebSocket_fst (broken : WS → Bool) (st : RoomState) (ws : WS) (m : Message) :
    (sendToWebSocket broken st ws m).1 =
      { st with sessions := if broken ws then mapDelete st.sessions ws else st.sessions } := by
  by_cases h : broken ws <;> simp [sendToWebSocket, h]

theorem sendToWebSocket_noFail (st : RoomState) (ws : WS) (m : Message) :
    sendToWebSocket noFail st ws m = (st, [OutEvent.send ws m]) := by
  simp [sendToWebSocket, noFail]

theorem replayHistory_noFail (st : RoomState) (ws : WS) (msgs : List Message) :
    replayHistory noFail st ws msgs = (st, msgs.map (OutEvent.send ws)) := by
  induction msgs generalizing st with
  | nil => simp [replayHistory]
  | cons m rest ih => simp [replayHistory, sendToWebSocket_noFail, ih]

theorem replayHistory_fst (broken : WS → Bool) (st : RoomState) (ws : WS)
    (msgs : List Message) :
    (replayHistory broken st ws msgs).1 =
      { st with sessions :=
          msgs.foldl (fun acc _ => if broken ws then mapDelete acc ws else acc) st.sessions } := by
  induction msgs generalizing st with
  | nil => simp [replayHistory]
  | cons m rest ih =>
    by_cases h : broken ws <;>
      simp [replayHistory, sendToWebSocket, h, ih]

theorem sendToAll_noFail (st : RoomState) (targets : List (WS × ChatUser)) (m : Message) :
    sendToAll noFail st targets m = (st, targets.map (fun p => OutEvent.send p.1 m)) := by
  induction targets generalizing st with
  | nil => simp [sendToAll]
  | cons p rest ih => simp [sendToAll, sendToWebSocket_noFail, ih]

theorem broadcastMessage_noFail (st : RoomState) (m : Message) :
    broadcastMessage noFail st m = (st, st.sessions.map (fun p => OutEvent.send p.1 m)) := by
  simp [broadcastMessage, sendToAll_noFail]

theorem sendToAll_snd (broken : WS → Bool) (st : RoomState) (targets : List (WS × ChatUser))
    (m : Message) :
    (sendToAll broken st targets m).2 =
      (targets.filter (fun p => !broken p.1)).map (fun p => OutEvent.send p.1 m) := by
  induction targets generalizing st with
  | nil => simp [sendToAll]
  | cons p rest ih =>
    by_cases h : broken p.1 <;>
      simp [sendToAll, sendToWebSocket, h, ih]

theorem foldl_delete_filter (broken : WS → Bool) (l acc : List (WS × ChatUser)) :
    l.foldl (fun acc p => if broken p.1 then mapDelete acc p.1 else acc) acc
      = acc.filter (fun p => !(l.any (fun q => broken q.1 && (p.1 == q.1)))) := by
  induction l generalizing acc with
  | nil => simp
  | cons q rest ih =>
    rw [List.foldl_cons]
    by_cases hq : broken q.1
    · rw [if_pos hq, ih, mapDelete, List.filter_filter]
      apply List.filter_congr
      intro p _
      cases hpq : p.1 == q.1 <;>
        cases hr : rest.any (fun q => broken q.1 && (p.1 == q.1)) <;>
          simp [List.any_cons, hq, hpq, hr] <;> simp_all
    · rw [if_neg hq, ih]
      apply List.filter_congr
      intro p _
      simp [hq]

theorem any_key_broken (broken : WS → Bool) (l : List (WS × ChatUser)) (p : WS × ChatUser)
    (hp : p ∈ l) : l.any (fun q => broken q.1 && (p.1 == q.1)) = broken p.1 := by
  cases hb : broken p.1
  · rw [List.any_eq_false]
    intro q hq
    simp only [Bool.and_eq_true, beq_iff_eq, not_and]
    intro hbq hpq
    rw [hpq] at hb
    rw [hb] at hbq
    cases hbq
  · rw [List.any_eq_true]
    exact ⟨p, hp, by simp [hb]⟩

theorem filter_any_self (broken : WS → Bool) (l : List (WS × ChatUser)) :
    l.filter (fun p => !(l.any (fun q => broken q.1 && (p.1 == q.1))))
      = l.filter (fun p => !broken p.1) := by
  apply List.filter_congr
  intro p hp
  rw [any_key_broken broken l p hp]

theorem sendToAll_fst (broken : WS → Bool) (st : RoomState) (targets : List (WS × ChatUser))
    (m : Message) :
    (sendToAll broken st targets m).1 =
      { st with sessions :=
          (targets.foldl (fun acc p => if broken p.1 then mapDelete acc p.1 else acc)
            st.sessions) } := by
  induction targets generalizing st with
  | nil => simp [sendToAll]
  | cons p rest ih =>
    by_cases h : broken p.1 <;>
      simp [sendToAll, sendToWebSocket, h, ih]

theorem broadcastMessage_spec (broken : WS → Bool) (st : RoomState) (m : Message) :
    broadcastMessage broken st m =
      ({ st with sessions := st.sessions.filter (fun p => !broken p.1) },
        (st.sessions.filter (fun p => !broken p.1)).map (fun p => OutEvent.send p.1 m)) := by
  have hpair : broadcastMessage broken st m =
      ((sendToAll broken st st.sessions m).1, (sendToAll broken st st.sessions m).2) := rfl
  rw [hpair, sendToAll_fst, sendToAll_snd, foldl_delete_filter, filter_any_self]

theorem mapGet_filter_broken (broken : WS → Bool) (l : List (WS × ChatUser)) (ws : WS)
    (h : broken ws = true) :
    mapGet (l.filter (fun p => !broken p.1)) ws = none := by
  induction l with
  | nil => simp [mapGet]
  | cons p rest ih =>
    by_cases hp : broken p.1
    · simpa [List.filter_cons, hp] using ih
    · by_cases hw : p.1 = ws
      · rw [hw] at hp
        exact absurd h hp
      · simpa [List.filter_cons, hp, mapGet, hw] using ih

theorem mapGet_filter_live (broken : WS → Bool) (l : List (WS × ChatUser)) (ws : WS)
    (h : broken ws = false) :
    mapGet (l.filter (fun p => !broken p.1)) ws = mapGet l ws := by
  induction l with
  | nil => simp [mapGet]
  | cons p rest ih =>
    by_cases hw : p.1 = ws
    · have hp : broken p.1 = false := by rw [hw]; exact h
      simp [List.filter_cons, hp, mapGet, hw, h]
    · by_cases hp : broken p.1 <;>
        simpa [List.filter_cons, hp, mapGet, hw] using ih

theorem mapGet_restoreState (handles : List (WS × Option ChatUser)) (ws : WS) (u : ChatUser)
    (h : mapGet handles ws = some (some u)) :
    mapGet (restoreState handles).sessions ws = some u := by
  induction handles with
  | nil => simp [mapGet] at h
  | cons p rest ih =>
    obtain ⟨k, a⟩ := p
    by_cases hk : k = ws
    · subst hk
      simp [mapGet] at h
      subst h
      simp [restoreState, List.filterMap_cons, mapGet]
    · simp [mapGet, hk] at h
      cases a with
      | none => simpa [restoreState, List.filterMap_cons] using ih h
      | some v => simpa [restoreState, List.filterMap_cons, mapGet, hk] using ih h

theorem lastN_of_length_le {l : List α} (n : Nat) (h : l.length ≤ n) : lastN n l = l := by
  rw [lastN, show l.length - n = 0 by omega, List.drop_zero]

theorem length_lastN (n : Nat) (l : List α) : (lastN n l).length = min n l.length := by
  rw [lastN, List.length_drop]
  omega

theorem historyAppend_eq_lastN (h : List Message) (m : Message) :
    historyAppend h m = lastN MAX_HISTORY (h ++ [m]) := by
  simp only [historyAppend]
  by_cases hlt : MAX_HISTORY < (h ++ [m]).length
  · rw [if_pos hlt]
  · rw [if_neg hlt]
    rw [lastN_of_length_le MAX_HISTORY (by omega)]

theorem length_historyAppend_le (h : List Message) (m : Message) :
    (historyAppend h m).length ≤ MAX_HISTORY := by
  rw [historyAppend_eq_lastN h m, length_lastN]
  omega

theorem lastN_lastN_append (n : Nat) (l l2 : List α) :
    lastN n (lastN n l ++ l2) = lastN n (l ++ l2) := by
  rcases le_or_lt l.length n with hle | hlt
  · rw [lastN_of_length_le n hle]
  · simp only [lastN, List.length_append, List.length_drop]
    rw [show l.length - (l.length - n) + l2.length - n = l2.length from by omega]
    have h1 : l ++ l2 = l.take (l.length - n) ++ (l.drop (l.length - n) ++ l2) := by
      rw [← List.append_assoc, List.take_append_drop]
    have h2 : l.length + l2.length - n = (l.take (l.length - n)).length + l2.length := by
      rw [List.length_take]; omega
    rw [h1, h2, List.drop_append]

theorem foldl_historyAppend_lastN (ms : List Message) (h : List Message)
    (hle : h.length ≤ MAX_HISTORY) :
    List.foldl historyAppend h ms = lastN MAX_HISTORY (h ++ ms) := by
  induction ms generalizing h with
  | nil =>
    rw [List.foldl_nil, List.append_nil, lastN_of_length_le MAX_HISTORY hle]
  | cons m rest ih =>
    rw [List.foldl_cons, ih (historyAppend h m) (length_historyAppend_le h m),
      historyAppend_eq_lastN h m, lastN_lastN_append]
    congr 1
    simp

theorem foldl_historyAppend_length_le (ms : List Message) (h : List Message)
    (hle : h.length ≤ MAX_HISTORY) :
    (List.foldl historyAppend h ms).length ≤ MAX_HISTORY := by
  rw [foldl_historyAppend_lastN ms h hle, length_lastN]
  omega

theorem filter_sentTo_map_not_mem (ws : WS) (m : Message) (l : List (WS × ChatUser))
    (h : ws ∉ l.map Prod.fst) :
    (l.map (fun p => OutEvent.send p.1 m)).filter (sentTo ws) = [] := by
  rw [List.filter_eq_nil_iff]
  intro e he
  obtain ⟨p, hp, rfl⟩ := List.mem_map.mp he
  simp only [sentTo, beq_iff_eq, Bool.not_eq_true]
  intro hpw
  exact h (List.mem_map.mpr ⟨p, hp, hpw⟩)

theorem filter_sentTo_map_self (ws : WS) (msgs : List Message) :
    (msgs.map (OutEvent.send ws)).filter (sentTo ws) = msgs.map (OutEvent.send ws) := by
  rw [List.filter_eq_self]
  intro e he
  obtain ⟨m, _, rfl⟩ := List.mem_map.mp he
  simp [sentTo]

theorem filter_sentTo_mapSet (ws : WS) (u : ChatUser) (m : Message)
    (l : List (WS × ChatUser)) (hnodup : (l.map Prod.fst).Nodup) :
    ((mapSet l ws u).map (fun p => OutEvent.send p.1 m)).filter (sentTo ws)
      = [OutEvent.send ws m] := by
  induction l with
  | nil => simp [mapSet, sentTo]
  | cons p rest ih =>
    obtain ⟨k, v⟩ := p
    rw [List.map_cons, List.nodup_cons] at hnodup
    obtain ⟨hknot, hrest⟩ := hnodup
    by_cases hk : k = ws
    · subst hk
      rw [show mapSet ((k, v) :: rest) k u = (k, u) :: rest from by simp [mapSet]]
      rw [List.map_cons, List.filter_cons, if_pos (show sentTo k (OutEvent.send k m) = true
        from by simp [sentTo])]
      rw [filter_sentTo_map_not_mem k m rest hknot]
    · rw [show mapSet ((k, v) :: rest) ws u = (k, v) :: mapSet rest ws u
        from by simp [mapSet, hk]]
      rw [List.map_cons, List.filter_cons, if_neg (show ¬sentTo ws (OutEvent.send k m) = true
        from by simp [sentTo, hk])]
      exact ih hrest

/- ### Claim theorems -/

/-- C9: an inbound payload equal to the literal text `ping` is answered with the
literal `pong` reply and nothing else, bypassing the decoder entirely (the
result does not depend on `parse`) and leaving the whole room state — Registry,
History Buffer, attachments and id counter — exactly as before, for every
connection and every state. -/
theorem chat_C9_ping_pong (parse : Str → Option ClientMessage) (broken : WS → Bool)
    (st : RoomState) (ws : WS) (now : Nat) :
    webSocketMessage parse broken st ws "ping".data now = (st, [OutEvent.pong ws]) := by
  simp [webSocketMessage]

/-- C10: a `send_message` intent from a connection that has no session produces
only the direct `Not authenticated` error to that connection; the Registry and
the History Buffer are unchanged (only the fresh-id counter advanced for the
error message), and no `Chat` message is minted or broadcast. -/
theorem chat_C10_unauthenticated_send (st : RoomState) (ws : WS) (content : Str)
    (now : Nat) (hsess : mapGet st.sessions ws = none) :
    handleSendMessage noFail st ws content now =
      ({ st with nextId := st.nextId + 1 },
        [OutEvent.send ws (Message.server st.nextId
          ("Error: ".data ++ "Not authenticated. Please join the chat first.".data) now)]) := by
  simp [handleSendMessage, hsess, sendError, sendToWebSocket, noFail]

theorem chat_C10_witness :
    mapGet initialState.sessions 0 = none ∧
    handleSendMessage noFail initialState 0 "hello".data 4 =
      ({ initialState with nextId := 1 },
        [OutEvent.send 0 (Message.server 0
          ("Error: ".data ++ "Not authenticated. Please join the chat first.".data) 4)]) :=
  ⟨by decide, chat_C10_unauthenticated_send initialState 0 "hello".data 4 (by decide)⟩

/-- C1 fails on the code: the duplicate-name guard compares the raw requested
name against the stored (trimmed) names, so joining as `" alice"` after
`"alice"` succeeds and leaves two live sessions whose `username` fields are
both exactly `"alice"` — the claimed per-displayName uniqueness invariant is
violated on a reachable state. -/
theorem chat_C1_displayname_collision :
    mapGet (handleUserJoin noFail (handleUserJoin noFail initialState 1 "alice".data 0).1
      2 " alice".data 1).1.sessions 1 = some ⟨"alice".data, 0, 0⟩ ∧
    mapGet (handleUserJoin noFail (handleUserJoin noFail initialState 1 "alice".data 0).1
      2 " alice".data 1).1.sessions 2 = some ⟨"alice".data, 3, 1⟩ ∧
    (1 : WS) ≠ 2 := by decide

/-- C8 fails as stated: after handle 1 joined as `alice`, a second `join_chat`
with the same name from handle 1 itself is refused as a duplicate even though
no other live handle holds the name (every registry entry belongs to handle 1),
and the Registry and History are unchanged by the refusal. -/
theorem chat_C8_self_rejoin_duplicate :
    let st1 := (handleUserJoin noFail initialState 1 "alice".data 0).1
    (handleUserJoin noFail st1 1 "alice".data 1).2
      = [OutEvent.send 1 (Message.server 3
          ("Error: ".data ++ "Username already taken".data) 1)] ∧
    (∀ p ∈ st1.sessions, p.1 = 1) ∧
    mapGet st1.sessions 1 = some ⟨"alice".data, 0, 0⟩ ∧
    (handleUserJoin noFail st1 1 "alice".data 1).1.sessions = st1.sessions ∧
    (handleUserJoin noFail st1 1 "alice".data 1).1.messageHistory = st1.messageHistory := by
  decide

/-- C8 (amended): join fails with the invalid-name error when the trimmed name
is empty; otherwise it fails with the duplicate-name error if and only if some
live handle — possibly the requesting connection itself — already holds that
exact (raw) name; on either failure only the requester receives the error and
Registry and History are untouched; on success a `Session` with a freshly
minted connection id and the current timestamp is created and stored for the
handle. -/
theorem chat_C8_join_contract (st : RoomState) (ws : WS) (username : Str) (now : Nat) :
    ((jsTrim username).length = 0 →
      handleUserJoin noFail st ws username now =
        ({ st with nextId := st.nextId + 1 },
          [OutEvent.send ws (Message.server st.nextId
            ("Error: ".data ++ "Invalid username".data) now)]))
    ∧ ((jsTrim username).length ≠ 0 →
        ((∃ p ∈ st.sessions, p.2.username = username) →
          handleUserJoin noFail st ws username now =
            ({ st with nextId := st.nextId + 1 },
              [OutEvent.send ws (Message.server st.nextId
                ("Error: ".data ++ "Username already taken".data) now)]))
        ∧ (¬(∃ p ∈ st.sessions, p.2.username = username) →
            mapGet (handleUserJoin noFail st ws username now).1.sessions ws
              = some ⟨jsTrim username, st.nextId, now⟩)) := by
  refine ⟨fun h0 => ?_, fun hval => ⟨fun hdup => ?_, fun hdup => ?_⟩⟩
  · simp [handleUserJoin, h0, sendError, sendToWebSocket, noFail]
  · have hany : st.sessions.any (fun p => p.2.username == username) = true := by
      rw [List.any_eq_true]
      obtain ⟨p, hp, he⟩ := hdup
      exact ⟨p, hp, by simp [he]⟩
    simp [handleUserJoin, hval, hany, sendError, sendToWebSocket, noFail]
  · have hany : st.sessions.any (fun p => p.2.username == username) = false := by
      rw [List.any_eq_false]
      intro p hp
      simp only [beq_iff_eq]
      intro he
      exact hdup ⟨p, hp, he⟩
    simp [handleUserJoin, hval, hany, sendToWebSocket, noFail, replayHistory_noFail,
      broadcastMessage_noFail, addToHistory, mapGet_mapSet_self]

theorem chat_C8_witness :
    (jsTrim "alice".data).length ≠ 0 ∧
    ¬(∃ p ∈ initialState.sessions, p.2.username = "alice".data) ∧
    mapGet (handleUserJoin noFail initialState 5 "alice".data 7).1.sessions 5
      = some ⟨jsTrim "alice".data, 0, 7⟩ :=
  ⟨by decide, by decide,
    ((chat_C8_join_contract initialState 5 "alice".data 7).2 (by decide)).2 (by decide)⟩

/-- C2: for every broadcast, the fan-out delivers the payload to exactly the
connections whose transport write succeeds, a failed delivery removes exactly
the failed connection from the Registry (it is absent from the sessions map
immediately after), no `UserLeft` or any frame other than the payload itself is
emitted within the fan-out pass, and the broadcast is a total function — it
always completes and returns to its caller. -/
theorem chat_C2_broadcast_failure_isolation (broken : WS → Bool) (st : RoomState)
    (m : Message) :
    broadcastMessage broken st m =
      ({ st with sessions := st.sessions.filter (fun p => !broken p.1) },
        (st.sessions.filter (fun p => !broken p.1)).map (fun p => OutEvent.send p.1 m)) ∧
    (∀ ws, broken ws = true → mapGet (broadcastMessage broken st m).1.sessions ws = none) ∧
    (∀ ws, broken ws = false →
      mapGet (broadcastMessage broken st m).1.sessions ws = mapGet st.sessions ws) ∧
    (∀ e ∈ (broadcastMessage broken st m).2, ∃ w, broken w = false ∧ e = OutEvent.send w m) := by
  refine ⟨broadcastMessage_spec broken st m, fun ws h => ?_, fun ws h => ?_, fun e he => ?_⟩
  · rw [broadcastMessage_spec]
    exact mapGet_filter_broken broken st.sessions ws h
  · rw [broadcastMessage_spec]
    exact mapGet_filter_live broken st.sessions ws h
  · rw [broadcastMessage_spec] at he
    simp only [List.mem_map, List.mem_filter] at he
    obtain ⟨p, ⟨_, hb⟩, rfl⟩ := he
    exact ⟨p.1, by simpa using hb, rfl⟩

theorem chat_C2_witness :
    ((fun w => w == 1) 1 : Bool) = true ∧
    mapGet (broadcastMessage (fun w => w == 1)
      { sessions := [(1, ⟨"a".data, 0, 0⟩), (2, ⟨"b".data, 1, 0⟩)],
        messageHistory := [], attachments := [], nextId := 2 }
      (Message.server 2 "x".data 3)).1.sessions 1 = none :=
  ⟨rfl,
    (chat_C2_broadcast_failure_isolation (fun w => w == 1)
      { sessions := [(1, ⟨"a".data, 0, 0⟩), (2, ⟨"b".data, 1, 0⟩)],
        messageHistory := [], attachments := [], nextId := 2 }
      (Message.server 2 "x".data 3)).2.1 1 rfl⟩

/-- C5: for every sequence of appends into an initially empty History Buffer
the length after every step stays at most `MAX_HISTORY`; after appending
`MAX_HISTORY + k` messages (`k ≥ 1`) the retained buffer is exactly the last
`MAX_HISTORY` appended messages in their original insertion order, and what was
evicted is precisely the `k` oldest messages (the retained buffer is the
original sequence with its first `k` entries dropped). -/
theorem chat_C5_history_bound_and_eviction (ms : List Message) (k : Nat)
    (hk : 1 ≤ k) (hlen : ms.length = MAX_HISTORY + k) :
    (∀ n : Nat, (List.foldl historyAppend [] (ms.take n)).length ≤ MAX_HISTORY) ∧
    List.foldl historyAppend [] ms = lastN MAX_HISTORY ms ∧
    ms.take (ms.length - MAX_HISTORY) ++ List.foldl historyAppend [] ms = ms ∧
    (ms.take (ms.length - MAX_HISTORY)).length = k := by
  have hfold : List.foldl historyAppend [] ms = lastN MAX_HISTORY ms := by
    simpa using foldl_historyAppend_lastN ms [] (by simp)
  refine ⟨fun n => foldl_historyAppend_length_le _ _ (by simp), hfold, ?_, ?_⟩
  · rw [hfold, lastN, List.take_append_drop]
  · rw [List.length_take]
    omega

theorem chat_C5_witness :
    1 ≤ 1 ∧
    ((List.range 51).map (fun i => Message.server i [] i)).length = MAX_HISTORY + 1 ∧
    List.foldl historyAppend [] ((List.range 51).map (fun i => Message.server i [] i))
      = lastN MAX_HISTORY ((List.range 51).map (fun i => Message.server i [] i)) :=
  ⟨by decide, by decide,
    (chat_C5_history_bound_and_eviction ((List.range 51).map (fun i => Message.server i [] i))
      1 (by decide) (by decide)).2.1⟩

/-- C6: for a joined connection, `send_message` with whitespace-only content is
refused with a direct error to the sender only and leaves Registry and History
untouched; with non-blank content a `Chat` message is minted whose content is
the trimmed input and whose author is the session `username` of the sender, it is
appended to History and broadcast to every joined connection, the sender
included. -/
theorem chat_C6_send_validation_and_broadcast (st : RoomState) (ws : WS) (content : Str)
    (now : Nat) (user : ChatUser) (hsess : mapGet st.sessions ws = some user) :
    ((jsTrim content).length = 0 →
      handleSendMessage noFail st ws content now =
        ({ st with nextId := st.nextId + 1 },
          [OutEvent.send ws (Message.server st.nextId
            ("Error: ".data ++ "Message cannot be empty".data) now)])) ∧
    ((jsTrim content).length ≠ 0 →
      handleSendMessage noFail st ws content now =
        ({ st with
            messageHistory := historyAppend st.messageHistory
              (Message.chat st.nextId (jsTrim content) user.username now)
            nextId := st.nextId + 1 },
          st.sessions.map (fun p => OutEvent.send p.1
            (Message.chat st.nextId (jsTrim content) user.username now))) ∧
      OutEvent.send ws (Message.chat st.nextId (jsTrim content) user.username now)
        ∈ (handleSendMessage noFail st ws content now).2) := by
  constructor
  · intro h0
    simp [handleSendMessage, hsess, h0, sendError, sendToWebSocket, noFail]
  · intro hne
    have heq : handleSendMessage noFail st ws content now =
        ({ st with
            messageHistory := historyAppend st.messageHistory
              (Message.chat st.nextId (jsTrim content) user.username now)
            nextId := st.nextId + 1 },
          st.sessions.map (fun p => OutEvent.send p.1
            (Message.chat st.nextId (jsTrim content) user.username now))) := by
      simp [handleSendMessage, hsess, hne, addToHistory, broadcastMessage_noFail]
    refine ⟨heq, ?_⟩
    rw [heq]
    exact List.mem_map.mpr ⟨(ws, user), mapGet_mem hsess, rfl⟩

theorem chat_C6_witness :
    mapGet (RoomState.mk [(3, ⟨"alice".data, 0, 0⟩)] [] [(3, ⟨"alice".data, 0, 0⟩)] 7).sessions 3
      = some ⟨"alice".data, 0, 0⟩ ∧
    (jsTrim " hi ".data).length ≠ 0 ∧
    jsTrim " hi ".data = "hi".data ∧
    OutEvent.send 3 (Message.chat 7 (jsTrim " hi ".data) "alice".data 9)
      ∈ (handleSendMessage noFail
          (RoomState.mk [(3, ⟨"alice".data, 0, 0⟩)] [] [(3, ⟨"alice".data, 0, 0⟩)] 7)
          3 " hi ".data 9).2 :=
  ⟨by decide, by decide, by decide,
    ((chat_C6_send_validation_and_broadcast
      (RoomState.mk [(3, ⟨"alice".data, 0, 0⟩)] [] [(3, ⟨"alice".data, 0, 0⟩)] 7)
      3 " hi ".data 9 ⟨"alice".data, 0, 0⟩ (by decide)).2 (by decide)).2⟩

/-- C7: a leave intent (or transport closure, which is routed identically) for
a connection holding a session removes exactly that registry entry, mints and
records a `UserLeft` event and broadcasts it to the remaining joined
connections — never to the leaver — then closes the transport with the normal
closure code 1000; processing a second closure signal for the same connection
afterwards changes nothing and emits no second `UserLeft`, only the close. -/
theorem chat_C7_leave_removes_and_broadcasts (st : RoomState) (ws : WS) (now now' : Nat)
    (user : ChatUser) (hsess : mapGet st.sessions ws = some user) :
    handleUserLeave noFail st ws now =
      ({ st with
          sessions := mapDelete st.sessions ws
          messageHistory := historyAppend st.messageHistory
            (Message.userLeft st.nextId user.username now)
          nextId := st.nextId + 1 },
        (mapDelete st.sessions ws).map (fun p => OutEvent.send p.1
          (Message.userLeft st.nextId user.username now))
          ++ [OutEvent.close ws 1000 "User left chat".data]) ∧
    (∀ m, OutEvent.send ws m ∉ (handleUserLeave noFail st ws now).2) ∧
    handleUserLeave noFail (handleUserLeave noFail st ws now).1 ws now' =
      ((handleUserLeave noFail st ws now).1,
        [OutEvent.close ws 1000 "User left chat".data]) := by
  have heq : handleUserLeave noFail st ws now =
      ({ st with
          sessions := mapDelete st.sessions ws
          messageHistory := historyAppend st.messageHistory
            (Message.userLeft st.nextId user.username now)
          nextId := st.nextId + 1 },
        (mapDelete st.sessions ws).map (fun p => OutEvent.send p.1
          (Message.userLeft st.nextId user.username now))
          ++ [OutEvent.close ws 1000 "User left chat".data]) := by
    simp [handleUserLeave, hsess, addToHistory, broadcastMessage_noFail]
  refine ⟨heq, fun m hm => ?_, ?_⟩
  · rw [heq] at hm
    simp only [List.mem_append, List.mem_map, List.mem_singleton] at hm
    rcases hm with ⟨p, hp, he⟩ | he
    · have hpw : p.1 = ws := by
        have := (OutEvent.send.injEq ws m p.1 _).mp he.symm
        exact this.1.symm
      have := (List.mem_filter.mp hp).2
      rw [hpw] at this
      simp at this
    · cases he
  · have hnone : mapGet (handleUserLeave noFail st ws now).1.sessions ws = none := by
      rw [heq]
      exact mapGet_mapDelete_self st.sessions ws
    generalize hst : (handleUserLeave noFail st ws now).1 = st2 at hnone ⊢
    simp [handleUserLeave, hnone]

theorem chat_C7_witness :
    mapGet (RoomState.mk [(1, ⟨"a".data, 0, 0⟩), (2, ⟨"b".data, 1, 0⟩)] [] [] 2).sessions 1
      = some ⟨"a".data, 0, 0⟩ ∧
    handleUserLeave noFail
        (handleUserLeave noFail
          (RoomState.mk [(1, ⟨"a".data, 0, 0⟩), (2, ⟨"b".data, 1, 0⟩)] [] [] 2) 1 5).1 1 6 =
      ((handleUserLeave noFail
          (RoomState.mk [(1, ⟨"a".data, 0, 0⟩), (2, ⟨"b".data, 1, 0⟩)] [] [] 2) 1 5).1,
        [OutEvent.close 1 1000 "User left chat".data]) :=
  ⟨by decide,
    (chat_C7_leave_removes_and_broadcasts
      (RoomState.mk [(1, ⟨"a".data, 0, 0⟩), (2, ⟨"b".data, 1, 0⟩)] [] [] 2) 1 5 6
      ⟨"a".data, 0, 0⟩ (by decide)).2.2⟩

/-- C3: on every successful join the serialized `ChatUser` is attached to the
transport handle as part of the join transition itself — the attachment is in
place whatever the transport layer then does to the welcome, replay and
broadcast writes (the conclusion holds for every `broken`, including one that
fails every write, so the attachment cannot depend on any broadcast) — and a
coordinator recreated over still-open handles whose first entry for the socket
carries that attachment answers `sessionOf` with the original session while its
History Buffer restarts empty. -/
theorem chat_C3_attachment_and_rehydration (broken : WS → Bool) (st : RoomState)
    (ws : WS) (username : Str) (now : Nat)
    (hval : (jsTrim username).length ≠ 0)
    (hdup : st.sessions.any (fun p => p.2.username == username) = false) :
    mapGet (handleUserJoin broken st ws username now).1.attachments ws
      = some ⟨jsTrim username, st.nextId, now⟩ ∧
    ∀ handles : List (WS × Option ChatUser),
      mapGet handles ws = some (some (⟨jsTrim username, st.nextId, now⟩ : ChatUser)) →
      mapGet (restoreState handles).sessions ws
          = some ⟨jsTrim username, st.nextId, now⟩ ∧
      (restoreState handles).messageHistory = [] := by
  constructor
  · have hb : ∀ (st' : RoomState) (m' : Message),
        (broadcastMessage broken st' m').1.attachments = st'.attachments := by
      intro st' m'
      rw [show (broadcastMessage broken st' m').1 = (sendToAll broken st' st'.sessions m').1
        from rfl, sendToAll_fst]
    have hr : ∀ (st' : RoomState) (msgs : List Message),
        (replayHistory broken st' ws msgs).1.attachments = st'.attachments := by
      intro st' msgs
      rw [replayHistory_fst]
    have hs : ∀ (st' : RoomState) (m' : Message),
        (sendToWebSocket broken st' ws m').1.attachments = st'.attachments := by
      intro st' m'
      rw [sendToWebSocket_fst]
    simp [handleUserJoin, hval, hdup, hb, hr, hs, addToHistory, mapGet_mapSet_self]
  · intro handles hh
    exact ⟨mapGet_restoreState handles ws _ hh, rfl⟩

theorem chat_C3_witness :
    (jsTrim "bob".data).length ≠ 0 ∧
    initialState.sessions.any (fun p => p.2.username == "bob".data) = false ∧
    mapGet (handleUserJoin (fun _ => true) initialState 4 "bob".data 2).1.attachments 4
      = some ⟨jsTrim "bob".data, 0, 2⟩ ∧
    mapGet (restoreState [(4, some ⟨jsTrim "bob".data, 0, 2⟩)]).sessions 4
      = some ⟨jsTrim "bob".data, 0, 2⟩ :=
  ⟨by decide, by decide,
    (chat_C3_attachment_and_rehydration (fun _ => true) initialState 4 "bob".data 2
      (by decide) (by decide)).1,
    ((chat_C3_attachment_and_rehydration (fun _ => true) initialState 4 "bob".data 2
      (by decide) (by decide)).2 [(4, some ⟨jsTrim "bob".data, 0, 2⟩)] (by decide)).1⟩

/-- C4: on a successful join with a healthy transport, the output stream of
the handler is exactly the direct welcome to the joiner, then the last up to 10
History entries in stored (oldest-first) order, and only then the freshly
minted `UserJoined` broadcast (whose id is minted after the welcome id and
which is the message appended to History); restricting the stream to frames
delivered to the joiner shows the joiner receives the `UserJoined` broadcast
after its whole history replay. -/
theorem chat_C4_join_sequencing (st : RoomState) (ws : WS) (username : Str) (now : Nat)
    (hval : (jsTrim username).length ≠ 0)
    (hdup : st.sessions.any (fun p => p.2.username == username) = false)
    (hnodup : (st.sessions.map Prod.fst).Nodup) :
    (handleUserJoin noFail st ws username now).2 =
      OutEvent.send ws (Message.server (st.nextId + 1)
          ("Welcome to the chat, ".data ++ jsTrim username ++ "!".data) now)
        :: (lastN 10 st.messageHistory).map (OutEvent.send ws)
        ++ (mapSet st.sessions ws ⟨jsTrim username, st.nextId, now⟩).map
            (fun p => OutEvent.send p.1
              (Message.userJoined (st.nextId + 1 + 1) (jsTrim username) now)) ∧
    (handleUserJoin noFail st ws username now).1.messageHistory =
      historyAppend st.messageHistory
        (Message.userJoined (st.nextId + 1 + 1) (jsTrim username) now) ∧
    (handleUserJoin noFail st ws username now).2.filter (sentTo ws) =
      OutEvent.send ws (Message.server (st.nextId + 1)
          ("Welcome to the chat, ".data ++ jsTrim username ++ "!".data) now)
        :: (lastN 10 st.messageHistory).map (OutEvent.send ws)
        ++ [OutEvent.send ws (Message.userJoined (st.nextId + 1 + 1)
              (jsTrim username) now)] := by
  have hout : (handleUserJoin noFail st ws username now).2 =
      OutEvent.send ws (Message.server (st.nextId + 1)
          ("Welcome to the chat, ".data ++ jsTrim username ++ "!".data) now)
        :: (lastN 10 st.messageHistory).map (OutEvent.send ws)
        ++ (mapSet st.sessions ws ⟨jsTrim username, st.nextId, now⟩).map
            (fun p => OutEvent.send p.1
              (Message.userJoined (st.nextId + 1 + 1) (jsTrim username) now)) := by
    simp [handleUserJoin, hval, hdup, sendToWebSocket_noFail, replayHistory_noFail,
      broadcastMessage_noFail, addToHistory]
  refine ⟨hout, ?_, ?_⟩
  · simp [handleUserJoin, hval, hdup, sendToWebSocket_noFail, replayHistory_noFail,
      broadcastMessage_noFail, addToHistory]
  · rw [hout]
    simp only [List.filter_cons, List.filter_append, filter_sentTo_map_self,
      filter_sentTo_mapSet ws _ _ st.sessions hnodup]
    simp [sentTo]

theorem chat_C4_witness :
    (jsTrim "carol".data).length ≠ 0 ∧
    ((RoomState.mk [(1, ⟨"bob".data, 0, 0⟩)] [Message.server 9 "m".data 0] [] 5).sessions.any
      (fun p => p.2.username == "carol".data)) = false ∧
    ((RoomState.mk [(1, ⟨"bob".data, 0, 0⟩)] [Message.server 9 "m".data 0] [] 5).sessions.map
      Prod.fst).Nodup ∧
    (handleUserJoin noFail
        (RoomState.mk [(1, ⟨"bob".data, 0, 0⟩)] [Message.server 9 "m".data 0] [] 5)
        2 "carol".data 9).2.filter (sentTo 2) =
      OutEvent.send 2 (Message.server (5 + 1)
          ("Welcome to the chat, ".data ++ jsTrim "carol".data ++ "!".data) 9)
        :: (lastN 10 [Message.server 9 "m".data 0]).map (OutEvent.send 2)
        ++ [OutEvent.send 2 (Message.userJoined (5 + 1 + 1) (jsTrim "carol".data) 9)] :=
  ⟨by decide, by decide, by decide,
    (chat_C4_join_sequencing
      (RoomState.mk [(1, ⟨"bob".data, 0, 0⟩)] [Message.server 9 "m".data 0] [] 5)
      2 "carol".data 9 (by decide) (by decide) (by decide)).2.2⟩
